import Mathlib

/-
Verification of the Rooster-Systeem registration backend
(src/backend/accounts: models.py, serializers.py, views.py, admin.py).

The development shallowly embeds the registration workflow: the data model
(Company, User, RegistrationRequest), the serializer validation functions,
the public views (submit, verify-email), the manager-scoped views
(pending list, approve/reject) and the admin company-code generator.
Strings are Lean `String`s manipulated through their `data` character
lists; Python decimal formatting (`str(n)`, f-string `{n:02d}`/`{n:04d}`)
is modelled by an explicit base-10 formatter below.
-/

namespace Rooster

instance {ε α : Type} [DecidableEq ε] [DecidableEq α] : DecidableEq (Except ε α) := fun
  | .ok a, .ok b =>
    if h : a = b then isTrue (by rw [h]) else isFalse (fun hc => by cases hc; exact h rfl)
  | .ok _, .error _ => isFalse (fun hc => by cases hc)
  | .error _, .ok _ => isFalse (fun hc => by cases hc)
  | .error a, .error b =>
    if h : a = b then isTrue (by rw [h]) else isFalse (fun hc => by cases hc; exact h rfl)

/-- Decimal digit (0..9) to its character; models Python decimal digits. -/
def digitChar : Nat → Char
  | 0 => '0'
  | 1 => '1'
  | 2 => '2'
  | 3 => '3'
  | 4 => '4'
  | 5 => '5'
  | 6 => '6'
  | 7 => '7'
  | 8 => '8'
  | _ => '9'

/-- Fuel-driven base-10 rendering of a natural number (most significant digit
first).  With fuel > n this is exactly the decimal representation. -/
def toDecimalAux : Nat → Nat → List Char
  | 0, _ => []
  | fuel + 1, n =>
    if n < 10 then [digitChar n]
    else toDecimalAux fuel (n / 10) ++ [digitChar (n % 10)]

/-- Models Python `str(n)` for a natural number. -/
def natToString (n : Nat) : String := ⟨toDecimalAux (n + 1) n⟩

/-- Left pad a character list with zeros up to `width`; models the `0`-pad
of Python format specifiers. -/
def padZeros (width : Nat) (s : List Char) : List Char :=
  List.replicate (width - s.length) '0' ++ s

/-- Models Python f-string formatting `{n:02d}`. -/
def fmt02 (n : Nat) : String := ⟨padZeros 2 (toDecimalAux (n + 1) n)⟩

/-- Models Python f-string formatting `{n:04d}`. -/
def fmt04 (n : Nat) : String := ⟨padZeros 4 (toDecimalAux (n + 1) n)⟩

/-- Numeric value of a decimal digit character (0 for anything else). -/
def charVal : Char → Nat
  | '1' => 1
  | '2' => 2
  | '3' => 3
  | '4' => 4
  | '5' => 5
  | '6' => 6
  | '7' => 7
  | '8' => 8
  | '9' => 9
  | _ => 0

/-- Big-endian decimal parser used only in proofs, as a left inverse of the
formatters. -/
def parseAux : Nat → List Char → Nat
  | acc, [] => acc
  | acc, c :: cs => parseAux (acc * 10 + charVal c) cs

theorem parseAux_append (acc : Nat) (l1 l2 : List Char) :
    parseAux acc (l1 ++ l2) = parseAux (parseAux acc l1) l2 := by
  induction l1 generalizing acc with
  | nil => rfl
  | cons c cs ih => simp [parseAux, ih]

theorem charVal_digitChar {d : Nat} (h : d < 10) : charVal (digitChar d) = d := by
  interval_cases d <;> rfl

theorem toDecimalAux_ne_nil (fuel n : Nat) : toDecimalAux (fuel + 1) n ≠ [] := by
  unfold toDecimalAux
  split <;> simp

theorem parse_toDecimalAux :
    ∀ fuel n acc, n < fuel →
      parseAux acc (toDecimalAux fuel n) =
        acc * 10 ^ (toDecimalAux fuel n).length + n := by
  intro fuel
  induction fuel with
  | zero => intro n acc h; omega
  | succ fuel ih =>
    intro n acc h
    unfold toDecimalAux
    by_cases h10 : n < 10
    · simp [h10, parseAux, charVal_digitChar h10]
    · have hdivlt : n / 10 < n := Nat.div_lt_self (by omega) (by omega)
      have hdiv : n / 10 < fuel := by omega
      simp only [h10, if_false]
      rw [parseAux_append, ih (n / 10) acc hdiv]
      have hmod : n % 10 < 10 := Nat.mod_lt _ (by omega)
      simp [parseAux, charVal_digitChar hmod, List.length_append]
      ring_nf
      have : n % 10 + n / 10 * 10 = n := by omega
      omega

theorem parse_natToString (n : Nat) : parseAux 0 (natToString n).data = n := by
  have h := parse_toDecimalAux (n + 1) n 0 (Nat.lt_succ_self n)
  simpa [natToString] using h

theorem parseAux_replicate_zero (k acc : Nat) :
    parseAux acc (List.replicate k '0') = acc * 10 ^ k := by
  induction k generalizing acc with
  | zero => simp [parseAux]
  | succ k ih =>
    have h0 : charVal '0' = 0 := rfl
    simp only [List.replicate_succ, parseAux, h0]
    rw [ih]
    ring

theorem parse_padZeros (w : Nat) (l : List Char) :
    parseAux 0 (padZeros w l) = parseAux 0 l := by
  unfold padZeros
  rw [parseAux_append, parseAux_replicate_zero]
  simp

theorem parse_fmt02 (n : Nat) : parseAux 0 (fmt02 n).data = n := by
  have h := parse_natToString n
  simpa [fmt02, natToString, parse_padZeros] using h

theorem parse_fmt04 (n : Nat) : parseAux 0 (fmt04 n).data = n := by
  have h := parse_natToString n
  simpa [fmt04, natToString, parse_padZeros] using h

theorem natToString_injective : Function.Injective natToString := by
  intro a b h
  have := congrArg (fun s => parseAux 0 s.data) h
  simpa [parse_natToString] using this

theorem fmt02_injective : Function.Injective fmt02 := by
  intro a b h
  have := congrArg (fun s => parseAux 0 s.data) h
  simpa [parse_fmt02] using this

theorem fmt04_injective : Function.Injective fmt04 := by
  intro a b h
  have := congrArg (fun s => parseAux 0 s.data) h
  simpa [parse_fmt04] using this

theorem natToString_data_ne_nil (n : Nat) : (natToString n).data ≠ [] :=
  toDecimalAux_ne_nil n n

theorem fmt02_data_ne_nil (n : Nat) : (fmt02 n).data ≠ [] := by
  have h := toDecimalAux_ne_nil n n
  simp only [fmt02, padZeros]
  intro hc
  rcases List.append_eq_nil.mp hc with ⟨-, h2⟩
  exact h h2

/-! ### Generic first-free-candidate search

Both `ApproveRegistrationView._create_user_account` (username generation,
views.py:360-367) and `CompanyAdmin.save_model` (company-code generation,
admin.py:52-63) run the same while loop: try a base candidate, and while the
candidate is already taken, append the next counter value.  `firstFree`
embeds that loop; the fuel `existing.length + 1` is enough, because an
injective candidate stream of that length cannot fit inside `existing`. -/

def firstFreeAux (existing : List String) (cand : Nat → String) :
    Nat → Nat → String
  | 0, c => cand c
  | fuel + 1, c => if cand c ∈ existing then firstFreeAux existing cand fuel (c + 1) else cand c

def firstFree (existing : List String) (cand : Nat → String) : String :=
  firstFreeAux existing cand (existing.length + 1) 0

theorem firstFreeAux_spec (existing : List String) (cand : Nat → String) :
    ∀ fuel c, (∃ i, i ≤ fuel ∧ cand (c + i) ∉ existing) →
      ∃ k, k ≤ fuel ∧ firstFreeAux existing cand fuel c = cand (c + k) ∧
        (∀ j, j < k → cand (c + j) ∈ existing) ∧ cand (c + k) ∉ existing := by
  intro fuel
  induction fuel with
  | zero =>
    intro c h
    rcases h with ⟨i, hi, hfree⟩
    have hi0 : i = 0 := Nat.le_zero.mp hi
    subst hi0
    exact ⟨0, Nat.le_refl 0, rfl, fun j hj => absurd hj (Nat.not_lt_zero j), hfree⟩
  | succ fuel ih =>
    intro c h
    by_cases hc : cand c ∈ existing
    · have hnext : ∃ i, i ≤ fuel ∧ cand (c + 1 + i) ∉ existing := by
        rcases h with ⟨i, hi, hfree⟩
        cases i with
        | zero => exact absurd hc (by simpa using hfree)
        | succ i =>
          exact ⟨i, Nat.le_of_succ_le_succ hi, by
            have : c + 1 + i = c + (i + 1) := by omega
            rw [this]; exact hfree⟩
      rcases ih (c + 1) hnext with ⟨k, hk, heq, hall, hfree⟩
      refine ⟨k + 1, Nat.succ_le_succ hk, ?_, ?_, ?_⟩
      · have : firstFreeAux existing cand (fuel + 1) c =
            firstFreeAux existing cand fuel (c + 1) := by
          simp [firstFreeAux, hc]
        rw [this, heq]
        congr 1
        omega
      · intro j hj
        cases j with
        | zero => simpa using hc
        | succ j =>
          have hj' : j < k := by omega
          have := hall j hj'
          have harg : c + 1 + j = c + (j + 1) := by omega
          rwa [harg] at this
      · have harg : c + 1 + k = c + (k + 1) := by omega
        rwa [harg] at hfree
    · refine ⟨0, Nat.zero_le _, ?_, fun j hj => absurd hj (Nat.not_lt_zero j), by simpa using hc⟩
      simp [firstFreeAux, hc]

theorem exists_free_candidate (existing : List String) (cand : Nat → String)
    (hinj : Function.Injective cand) :
    ∃ i, i ≤ existing.length + 1 ∧ cand i ∉ existing := by
  by_contra hall
  push_neg at hall
  have hsub : (Finset.range (existing.length + 2)).image cand ⊆ existing.toFinset := by
    intro x hx
    rcases Finset.mem_image.mp hx with ⟨i, hi, rfl⟩
    have : i ≤ existing.length + 1 := by
      have := Finset.mem_range.mp hi
      omega
    exact List.mem_toFinset.mpr (hall i this)
  have hcard1 : ((Finset.range (existing.length + 2)).image cand).card =
      existing.length + 2 := by
    rw [Finset.card_image_of_injective _ hinj, Finset.card_range]
  have hcard2 : existing.toFinset.card ≤ existing.length := List.toFinset_card_le existing
  have := Finset.card_le_card hsub
  omega

theorem firstFree_spec (existing : List String) (cand : Nat → String)
    (hinj : Function.Injective cand) :
    ∃ k, firstFree existing cand = cand k ∧
      (∀ j, j < k → cand j ∈ existing) ∧ cand k ∉ existing := by
  rcases exists_free_candidate existing cand hinj with ⟨i, hi, hfree⟩
  have h : ∃ i, i ≤ existing.length + 1 ∧ cand (0 + i) ∉ existing :=
    ⟨i, hi, by simpa using hfree⟩
  rcases firstFreeAux_spec existing cand (existing.length + 1) 0 h with
    ⟨k, hk, heq, hall, hfreek⟩
  exact ⟨k, by simpa using heq, fun j hj => by simpa using hall j hj, by simpa using hfreek⟩

theorem firstFree_not_mem (existing : List String) (cand : Nat → String)
    (hinj : Function.Injective cand) :
    firstFree existing cand ∉ existing := by
  rcases firstFree_spec existing cand hinj with ⟨k, heq, -, hfree⟩
  rw [heq]
  exact hfree

theorem firstFree_base (existing : List String) (cand : Nat → String)
    (hfree : cand 0 ∉ existing) :
    firstFree existing cand = cand 0 := by
  unfold firstFree firstFreeAux
  simp [hfree]

/-- Candidate stream of the shape used by both while loops: the bare base
for counter 0, then `base ++ suffix counter`.  Injective whenever the suffix
is decimal-parseable and nonempty. -/
theorem suffixCand_injective (base : String) (suffix : Nat → String)
    (hparse : ∀ c, parseAux 0 (suffix c).data = c)
    (hne : ∀ c, (suffix c).data ≠ []) :
    Function.Injective (fun c => if c = 0 then base else base ++ suffix c) := by
  intro a b h
  simp only at h
  by_cases ha : a = 0 <;> by_cases hb : b = 0
  · omega
  · exfalso
    rw [if_pos ha, if_neg hb] at h
    have := congrArg (fun s => s.data.length) h
    simp only [String.data_append, List.length_append] at this
    have hlen : (suffix b).data.length ≠ 0 := by
      intro h0
      exact hne b (List.length_eq_zero.mp h0)
    omega
  · exfalso
    rw [if_neg ha, if_pos hb] at h
    have := congrArg (fun s => s.data.length) h
    simp only [String.data_append, List.length_append] at this
    have hlen : (suffix a).data.length ≠ 0 := by
      intro h0
      exact hne a (List.length_eq_zero.mp h0)
    omega
  · rw [if_neg ha, if_neg hb] at h
    have hdata := congrArg String.data h
    simp only [String.data_append] at hdata
    have hsuf : (suffix a).data = (suffix b).data := List.append_cancel_left hdata
    have := congrArg (parseAux 0) hsuf
    rwa [hparse a, hparse b] at this

/-! ### Data model (src/backend/accounts/models.py)

Records are Lean structures; the database is three lists.  Timestamps and
dates are abstract `Nat` instants supplied by the caller (`timezone.now()`
values).  Foreign keys are the numeric ids of the referenced rows.
`employee_number` is a non-nullable column in the source, so the empty
string plays the role of Python's falsy "not yet assigned" value tested by
`User.save`. -/

/-- Python `str.lower()` (ASCII-faithful). -/
def lowerStr (s : String) : String := ⟨s.data.map Char.toLower⟩

/-- Python `str.upper()` (ASCII-faithful). -/
def upperStr (s : String) : String := ⟨s.data.map Char.toUpper⟩

structure Company where
  cid : Nat
  name : String
  company_code : String
  is_active : Bool
deriving DecidableEq, Repr

structure User where
  uid : Nat
  username : String
  email : String
  first_name : String
  last_name : String
  phone : String
  companyId : Nat
  role : String
  function : String
  employee_number : String
  is_approved : Bool
  approved_by : Option Nat
  approved_at : Option Nat
  email_verified : Bool
  hire_date : Option Nat
  is_active : Bool
deriving DecidableEq, Repr

structure RegistrationRequest where
  rid : Nat
  email : String
  first_name : String
  last_name : String
  phone : String
  function : String
  companyId : Nat
  company_code_entered : String
  status : String
  reviewed_by : Option Nat
  reviewed_at : Option Nat
  rejection_reason : String
  verification_token : String
  email_verified : Bool
deriving DecidableEq, Repr

structure DB where
  companies : List Company
  users : List User
  requests : List RegistrationRequest
deriving DecidableEq, Repr

/-- models.py:134-137 `User.is_manager_or_above`. -/
def is_manager_or_above (u : User) : Bool :=
  u.role == "manager" || u.role == "owner"

/-- models.py:139-142 `User.can_approve_users`. -/
def can_approve_users (u : User) : Bool :=
  (u.role == "manager" || u.role == "owner") && u.is_approved

namespace User

/-- models.py:144-153 `User.save`: assign `employee_number` on first
persistence when it is still empty.  The source counts
`User.objects.filter(company=self.company, employee_number__isnull=False)`;
the `employee_number` column is non-nullable, so the isnull filter is
vacuously true and the count is the number of accounts of the tenant.  The
count runs before the row itself is inserted, so `db.users` is the table
without the new account. -/
def save (db : DB) (co : Company) (u : User) : User :=
  if u.employee_number = "" then
    { u with employee_number :=
        co.company_code ++ "-" ++
          fmt04 ((db.users.filter (fun v => v.companyId == u.companyId)).length + 1) }
  else u

end User

/-! ### Serializer validation (src/backend/accounts/serializers.py) -/

/-- models.py:53-61 `User.FUNCTION_CHOICES` keys. -/
def function_choices : List String :=
  ["server", "kitchen", "bartender", "host", "cleaner", "delivery", "manager"]

/-- serializers.py:74 `re.sub(r"[\s-]", "", value)`. -/
def cleanPhone (value : String) : List Char :=
  value.data.filter (fun c => !(c.isWhitespace || c == '-'))

/-- The `6\d{8}$` part of the phone regex: a '6' followed by exactly eight
digits, end of string. -/
def tail68 : List Char → Bool
  | c :: rest => c == '6' && rest.length == 8 && rest.all (fun x => x.isDigit)
  | [] => false

/-- serializers.py:77 full match of the anchored regex
`^(\+31|0031|0)6\d{8}$`: one of the three alternative prefixes, followed by
the `6\d{8}` tail that consumes the rest of the string. -/
def dutchMobileOk (s : List Char) : Bool :=
  (['+', '3', '1'].isPrefixOf s && tail68 (s.drop 3)) ||
  (['0', '0', '3', '1'].isPrefixOf s && tail68 (s.drop 4)) ||
  (['0'].isPrefixOf s && tail68 (s.drop 1))

namespace RegistrationRequestSerializer

/-- serializers.py:62-69 `validate_email`: reject when the lowercased value
is the stored email of an existing account (`filter(email=value.lower())`
is an exact match against the stored string); otherwise return the
lowercased value. -/
def validate_email (db : DB) (value : String) : Except String String :=
  if db.users.any (fun u => u.email == lowerStr value) then
    .error "Dit e-mailadres is al geregistreerd."
  else .ok (lowerStr value)

/-- serializers.py:71-90 `validate_phone`: strip whitespace/hyphens, match
the Dutch mobile regex, then normalise to the `+31` form. -/
def validate_phone (value : String) : Except String String :=
  let cleaned := cleanPhone value
  if ¬ dutchMobileOk cleaned then
    .error "Voer een geldig Nederlands mobiel nummer in"
  else if ['0', '6'].isPrefixOf cleaned then .ok ⟨['+', '3', '1'] ++ cleaned.drop 1⟩
  else if ['0', '0', '3', '1'].isPrefixOf cleaned then .ok ⟨'+' :: cleaned.drop 2⟩
  else if ['+', '3', '1'].isPrefixOf cleaned then .ok ⟨cleaned⟩
  else .ok value

/-- serializers.py:92-121 `validate_password`, explicit checks only (the
call into Django's settings-configured `validate_password` is an external
collaborator whose configuration is not part of src/). -/
def validate_password (value : String) : Bool :=
  decide (8 ≤ value.length) && value.data.any (fun c => c.isUpper) &&
    value.data.any (fun c => c.isLower) && value.data.any (fun c => c.isDigit)

/-- serializers.py:123-131 `validate_company_code`: an active company with
the uppercased code must exist; the validated value is the uppercased code. -/
def validate_company_code (db : DB) (value : String) : Except String String :=
  match db.companies.find?
      (fun c => c.company_code == upperStr value && c.is_active) with
  | some _ => .ok (upperStr value)
  | none => .error "Ongeldige bedrijfscode."

end RegistrationRequestSerializer

/-! ### Submit view (views.py:72-119 `RegistrationRequestView.post`)

The field validators run first, then the cross-field `validate`
(serializers.py:133-152), then `create` (serializers.py:154-175).  The
fresh verification token (`str(uuid.uuid4())`) and the fresh primary key
are inputs.  The save runs inside `transaction.atomic()`; a database
integrity violation of `verification_token`'s `unique=True`
(models.py:202-204) or of `unique_together = ["email", "company"]`
(models.py:213) aborts the transaction and the view answers 500, leaving
the database unchanged — modelled by the two uniqueness guards before the
append. -/

structure SubmitInput where
  email : String
  first_name : String
  last_name : String
  phone : String
  function : String
  company_code : String
  password : String
  password_confirm : String
deriving DecidableEq, Repr

inductive SubmitResult
  | created (registration_id : Nat)
  | validationError (msg : String)
  | internalError
deriving DecidableEq, Repr

namespace RegistrationRequestView

/-- The row created by serializers.py:154-175 `create`, with the validated
(lowercased) email, the normalised phone and the uppercased company code. -/
def new_request (inp : SubmitInput) (freshRid : Nat) (token : String)
    (email phone company_code : String) (companyId : Nat) : RegistrationRequest :=
  { rid := freshRid, email := email, first_name := inp.first_name,
    last_name := inp.last_name, phone := phone, function := inp.function,
    companyId := companyId, company_code_entered := company_code,
    status := "pending", reviewed_by := none, reviewed_at := none,
    rejection_reason := "", verification_token := token,
    email_verified := false }

def post (db : DB) (inp : SubmitInput) (freshRid : Nat) (token : String) :
    SubmitResult × DB :=
  match RegistrationRequestSerializer.validate_email db inp.email with
  | .error m => (.validationError m, db)
  | .ok email =>
  match RegistrationRequestSerializer.validate_phone inp.phone with
  | .error m => (.validationError m, db)
  | .ok phone =>
  if ¬ inp.function ∈ function_choices then
    (.validationError "Ongeldige functie.", db)
  else
  match RegistrationRequestSerializer.validate_company_code db inp.company_code with
  | .error m => (.validationError m, db)
  | .ok company_code =>
  if ¬ RegistrationRequestSerializer.validate_password inp.password then
    (.validationError "Ongeldig wachtwoord.", db)
  else if inp.password ≠ inp.password_confirm then
    (.validationError "Wachtwoorden komen niet overeen.", db)
  else
  match db.companies.find? (fun c => c.company_code == company_code) with
  | none => (.internalError, db)
  | some company =>
  if db.requests.any (fun r =>
      r.email == email && r.companyId == company.cid && r.status == "pending") then
    (.validationError "Er is al een registratie verzoek in behandeling.", db)
  else if db.requests.any (fun r => r.verification_token == token) then
    (.internalError, db)
  else if db.requests.any (fun r => r.email == email && r.companyId == company.cid) then
    (.internalError, db)
  else
    (.created freshRid,
      { db with requests := db.requests ++
          [new_request inp freshRid token email phone company_code company.cid] })

end RegistrationRequestView

/-! ### Email verification (views.py:189-214 `verify_email`) -/

inductive VerifyResult
  | success
  | notFound
deriving DecidableEq, Repr

/-- The row update performed by `verify_email`: set `email_verified` on the
row with the given primary key. -/
def verify_update (l : List RegistrationRequest) (rid2 : Nat) :
    List RegistrationRequest :=
  l.map (fun x => if x.rid == rid2 then { x with email_verified := true } else x)

/-- views.py:189-214: look up a request by exact token with
`status="pending"` (the lookup does not constrain `email_verified`), set
`email_verified = True` and save; answer 404 when no such request exists.
The success payload (applicant and company names) is not modelled. -/
def verify_email (db : DB) (token : String) : VerifyResult × DB :=
  match db.requests.find?
      (fun r => r.verification_token == token && r.status == "pending") with
  | some r => (.success, { db with requests := verify_update db.requests r.rid })
  | none => (.notFound, db)

/-! ### Manager-scoped views -/

namespace PendingRegistrationsView

/-- views.py:223-235 `get_queryset`: callers without `can_approve_users`
get an empty queryset; otherwise the pending, email-verified requests of
the caller's company.  The model's `User` always carries the custom
attributes, so the `hasattr` guards are identities; the `-created_at`
ordering is not modelled (no claim concerns it). -/
def get_queryset (db : DB) (user : User) : List RegistrationRequest :=
  if ¬ can_approve_users user then []
  else db.requests.filter (fun r =>
    r.companyId == user.companyId && r.status == "pending" && r.email_verified)

end PendingRegistrationsView

inductive DecideResult
  | forbidden
  | notFound
  | badRequest
  | rejectedOk
  | approvedOk (newUserId : Nat) (employeeNumber : String)
  | internalError
deriving DecidableEq, Repr

namespace ApproveRegistrationView

/-- views.py:348-358 `role_mapping.get(function, "employee")`. -/
def role_mapping (f : String) : String :=
  if f = "server" then "employee"
  else if f = "kitchen" then "employee"
  else if f = "bartender" then "employee"
  else if f = "host" then "employee"
  else if f = "cleaner" then "employee"
  else if f = "delivery" then "employee"
  else if f = "manager" then "manager"
  else "employee"

/-- views.py:361 `f"{first_name.lower()}.{last_name.lower()}"`. -/
def base_username (rr : RegistrationRequest) : String :=
  lowerStr rr.first_name ++ "." ++ lowerStr rr.last_name

/-- Candidate stream of the username while loop (views.py:362-367): the
base name, then `base ++ str(counter)` for counter = 1, 2, ... -/
def username_cand (base : String) (c : Nat) : String :=
  if c = 0 then base else base ++ natToString c

/-- views.py:343-394 `_create_user_account`: role from the function
mapping, first collision-free username, then `create_user` which runs
`User.save` and thereby assigns the employee number. -/
def create_user_account (db : DB) (rr : RegistrationRequest) (approver : User)
    (co : Company) (freshUid now today : Nat) : User :=
  let role := role_mapping rr.function
  let username := firstFree (db.users.map (fun u => u.username))
    (username_cand (base_username rr))
  User.save db co
    { uid := freshUid, username := username, email := rr.email,
      first_name := rr.first_name, last_name := rr.last_name, phone := rr.phone,
      companyId := rr.companyId, role := role, function := rr.function,
      employee_number := "", is_approved := true, approved_by := some approver.uid,
      approved_at := some now, email_verified := true, hire_date := some today,
      is_active := true }

/-- The filter of views.py:268-274 `get_object_or_404(..., id=...,
company=request.user.company, status="pending", email_verified=True)`. -/
def request_lookup (caller : User) (registration_id : Nat) :
    RegistrationRequest → Bool :=
  fun r => r.rid == registration_id && r.companyId == caller.companyId &&
    r.status == "pending" && r.email_verified

/-- serializers.py:178-197 `RegistrationApprovalSerializer`: status must be
approved/rejected, and a rejection needs a nonempty reason (DRF's
`attrs.get("rejection_reason")` is falsy for an absent or empty value). -/
def approval_valid (status_input rejection_reason : String) : Bool :=
  (status_input == "approved" || status_input == "rejected") &&
    !(status_input == "rejected" && rejection_reason == "")

/-- Row update by primary key. -/
def update_request (l : List RegistrationRequest) (rid : Nat)
    (r' : RegistrationRequest) : List RegistrationRequest :=
  l.map (fun x => if x.rid == rid then r' else x)

/-- views.py:243-341 `ApproveRegistrationView.post`: 403 before anything is
read when the caller lacks `can_approve_users`; 404 when no request matches
id, caller company, pending status and verified email; 400 on serializer
failure; otherwise the reject or the approve transition.  The `hasattr`
guards are identities in the model.  A missing company row for the
request's FK would raise and roll back (500). -/
def post (db : DB) (caller : User) (registration_id : Nat)
    (status_input : String) (rejection_reason : String)
    (now today freshUid : Nat) : DecideResult × DB :=
  if ¬ can_approve_users caller then (.forbidden, db)
  else
    match db.requests.find? (request_lookup caller registration_id) with
    | none => (.notFound, db)
    | some rr =>
      if ¬ approval_valid status_input rejection_reason then (.badRequest, db)
      else if status_input == "rejected" then
        let rr' : RegistrationRequest :=
          { rr with
            status := "rejected"
            reviewed_by := some caller.uid
            reviewed_at := some now
            rejection_reason := rejection_reason }
        (.rejectedOk, { db with requests := update_request db.requests rr.rid rr' })
      else
        match db.companies.find? (fun c => c.cid == rr.companyId) with
        | none => (.internalError, db)
        | some co =>
          let newUser := create_user_account db rr caller co freshUid now today
          let rr' : RegistrationRequest :=
            { rr with
              status := "approved"
              reviewed_by := some caller.uid
              reviewed_at := some now }
          (.approvedOk freshUid newUser.employee_number,
            { db with
              requests := update_request db.requests rr.rid rr'
              users := db.users ++ [newUser] })

end ApproveRegistrationView

/-! ### Company code generation (admin.py:49-65 `CompanyAdmin.save_model`) -/

/-- Python `str.split()` with no argument: split on whitespace runs and
drop empty pieces. -/
def splitWsAux : List Char → List Char → List (List Char)
  | [], acc => if acc.isEmpty then [] else [acc.reverse]
  | c :: cs, acc =>
    if c.isWhitespace then
      if acc.isEmpty then splitWsAux cs [] else acc.reverse :: splitWsAux cs []
    else splitWsAux cs (c :: acc)

def pySplitWs (s : String) : List (List Char) := splitWsAux s.data []

namespace CompanyAdmin

/-- admin.py:55 `"".join([c.upper() for c in obj.name.split()[:2]])[:4]`:
the first two whitespace-separated words, each uppercased in full,
concatenated, truncated to four characters. -/
def generate_base_code (name : String) : String :=
  ⟨(((pySplitWs name).take 2).map (fun w => w.map Char.toUpper)).flatten.take 4⟩

/-- Candidate stream of the code while loop (admin.py:56-61): the base
code, then `base ++ f"{counter:02d}"` for counter = 1, 2, ... -/
def code_cand (base : String) (c : Nat) : String :=
  if c = 0 then base else base ++ fmt02 c

/-- admin.py:52-63: generated company code when the admin leaves the code
empty. -/
def generate_company_code (existing : List String) (name : String) : String :=
  firstFree existing (code_cand (generate_base_code name))

end CompanyAdmin

/-! ### Concrete fixtures used by witnesses and counterexamples -/

def exCompany : Company :=
  { cid := 0, name := "Jills Place", company_code := "JILL01", is_active := true }

def exManager : User :=
  { uid := 1, username := "jill.boss", email := "jill@jillsplace.nl",
    first_name := "Jill", last_name := "Boss", phone := "+31612345678",
    companyId := 0, role := "manager", function := "manager",
    employee_number := "JILL01-0001", is_approved := true, approved_by := none,
    approved_at := none, email_verified := true, hire_date := some 1,
    is_active := true }

def exUnapprovedManager : User :=
  { exManager with
    uid := 2
    username := "new.boss"
    email := "new@jillsplace.nl"
    employee_number := "JILL01-0002"
    is_approved := false }

def exRequest : RegistrationRequest :=
  { rid := 5, email := "anna@voorbeeld.nl", first_name := "Anna",
    last_name := "Smit", phone := "+31612345678", function := "server",
    companyId := 0, company_code_entered := "JILL01", status := "pending",
    reviewed_by := none, reviewed_at := none, rejection_reason := "",
    verification_token := "tok-anna", email_verified := true }

def exRequestUnverified : RegistrationRequest :=
  { exRequest with
    rid := 6
    email := "bob@voorbeeld.nl"
    verification_token := "tok-bob"
    email_verified := false }

def exDb : DB :=
  { companies := [exCompany], users := [exManager],
    requests := [exRequest, exRequestUnverified] }

/-! ## Claims -/

/-- C1: for every Decide call whose caller has `canApproveRequests`, if no
request with the given id is in the caller's tenant with status pending and
a verified email, the view answers NotFound and the database — accounts
included — is unchanged, so no Account is created.  The
`emailVerified=false` case is the instance where the matching request fails
the `email_verified` conjunct. -/
theorem c1_decide_notFound (db : DB) (caller : User) (rid2 : Nat)
    (st reason : String) (now today uid2 : Nat)
    (hca : can_approve_users caller = true)
    (hreq : ∀ r ∈ db.requests, r.rid = rid2 →
      ¬(r.companyId = caller.companyId ∧ r.status = "pending" ∧
        r.email_verified = true)) :
    ApproveRegistrationView.post db caller rid2 st reason now today uid2 =
      (.notFound, db) := by
  have hnone : db.requests.find?
      (ApproveRegistrationView.request_lookup caller rid2) = none := by
    rw [List.find?_eq_none]
    intro r hr hcon
    simp only [ApproveRegistrationView.request_lookup, Bool.and_eq_true,
      beq_iff_eq] at hcon
    rcases hcon with ⟨⟨⟨hid, hco⟩, hst⟩, hver⟩
    exact hreq r hr hid ⟨hco, hst, hver⟩
  simp [ApproveRegistrationView.post, hca, hnone]

/-- C1 witness: the manager of tenant 0 decides on request 6, which is
pending in the same tenant but not email-verified: NotFound, database
untouched. -/
theorem c1_decide_notFound_witness :
    ApproveRegistrationView.post exDb exManager 6 "approved" "" 100 100 9 =
      (.notFound, exDb) :=
  c1_decide_notFound exDb exManager 6 "approved" "" 100 100 9 (by decide)
    (by decide)

/-- C6: `can_approve_users` holds exactly for approved managers/owners; a
caller without it gets an empty pending list (not an error), and its Decide
call is refused with 403 while the database is left untouched. -/
theorem c6_access_policy :
    (∀ u : User, can_approve_users u = true ↔
      ((u.role = "manager" ∨ u.role = "owner") ∧ u.is_approved = true)) ∧
    (∀ (db : DB) (caller : User), can_approve_users caller = false →
      PendingRegistrationsView.get_queryset db caller = []) ∧
    (∀ (db : DB) (caller : User) (rid2 : Nat) (st reason : String)
      (now today uid2 : Nat), can_approve_users caller = false →
      ApproveRegistrationView.post db caller rid2 st reason now today uid2 =
        (.forbidden, db)) := by
  refine ⟨?_, ?_, ?_⟩
  · intro u
    simp [can_approve_users, Bool.and_eq_true, Bool.or_eq_true, beq_iff_eq]
  · intro db caller h
    simp [PendingRegistrationsView.get_queryset, h]
  · intro db caller rid2 st reason now today uid2 h
    simp [ApproveRegistrationView.post, h]

/-- C6 witness: an unapproved manager of tenant 0 sees an empty pending
list and has Decide refused on the verified pending request 5. -/
theorem c6_access_policy_witness :
    can_approve_users exUnapprovedManager = false ∧
    PendingRegistrationsView.get_queryset exDb exUnapprovedManager = [] ∧
    ApproveRegistrationView.post exDb exUnapprovedManager 5 "approved" "" 1 1 9 =
      (.forbidden, exDb) :=
  ⟨by decide, c6_access_policy.2.1 exDb exUnapprovedManager (by decide),
    c6_access_policy.2.2 exDb exUnapprovedManager 5 "approved" "" 1 1 9 (by decide)⟩

/-- Database holding one pending, not-yet-verified request (token
`tok-bob`), used to replay the verify-twice scenario. -/
def exDbBob : DB :=
  { companies := [exCompany], users := [exManager],
    requests := [exRequestUnverified] }

/-- C3 counterexample: verifying `tok-bob` succeeds, and re-invoking Verify
with the same token after that success succeeds again — it does not fail
NotFound as the claim states, because the lookup keys on
`status="pending"` only and a verified request is still pending. -/
theorem c3_verify_counterexample :
    (verify_email exDbBob "tok-bob").fst = .success ∧
    (verify_email (verify_email exDbBob "tok-bob").snd "tok-bob").fst =
      .success ∧
    (verify_email (verify_email exDbBob "tok-bob").snd "tok-bob").fst ≠
      .notFound := by
  decide

/-- C3 amended: a token matching a pending request makes Verify succeed and
set that request's `email_verified`; a token matching no pending request
(unknown, or only approved/rejected requests) fails NotFound with the
database unchanged; and re-invoking Verify with the same token after a
successful verification succeeds again (the request is still pending), it
does not fail NotFound. -/
theorem c3_verify_amended :
    (∀ (db : DB) (token : String) (r : RegistrationRequest),
      db.requests.find?
        (fun x => x.verification_token == token && x.status == "pending") = some r →
      verify_email db token =
        (.success, { db with requests := verify_update db.requests r.rid })) ∧
    (∀ (db : DB) (token : String),
      db.requests.find?
        (fun x => x.verification_token == token && x.status == "pending") = none →
      verify_email db token = (.notFound, db)) ∧
    (∀ (db : DB) (token : String), (verify_email db token).fst = .success →
      (verify_email (verify_email db token).snd token).fst = .success) := by
  refine ⟨?_, ?_, ?_⟩
  · intro db token r h
    simp [verify_email, h]
  · intro db token h
    simp [verify_email, h]
  · intro db token h
    cases hfind : db.requests.find?
        (fun x => x.verification_token == token && x.status == "pending") with
    | none => simp [verify_email, hfind] at h
    | some r =>
      have hsnd : (verify_email db token).snd =
          { db with requests := verify_update db.requests r.rid } := by
        simp [verify_email, hfind]
      rw [hsnd]
      have hpres : (fun x => x.verification_token == token && x.status == "pending") ∘
          (fun x : RegistrationRequest =>
            if x.rid == r.rid then { x with email_verified := true } else x) =
          (fun x : RegistrationRequest =>
            x.verification_token == token && x.status == "pending") := by
        funext x
        simp only [Function.comp_apply]
        split <;> rfl
      have hfind2 : ({ db with requests := verify_update db.requests r.rid } : DB).requests.find?
          (fun x => x.verification_token == token && x.status == "pending") =
          some (if r.rid == r.rid then { r with email_verified := true } else r) := by
        simp only [verify_update]
        rw [List.find?_map, hpres, hfind]
        rfl
      simp [verify_email, hfind2]

/-- C3 witness: an unknown token fails NotFound on exDb; re-verifying
`tok-bob` after a successful verification succeeds again. -/
theorem c3_verify_amended_witness :
    verify_email exDb "geen-token" = (.notFound, exDb) ∧
    (verify_email (verify_email exDbBob "tok-bob").snd "tok-bob").fst =
      .success :=
  ⟨c3_verify_amended.2.1 exDb "geen-token" (by decide),
    c3_verify_amended.2.2 exDbBob "tok-bob" (by decide)⟩

/-- Employee with an uppercase letter stored in the email column. -/
def exUserJohn : User :=
  { exManager with
    uid := 3
    username := "john.doe"
    email := "John@example.com"
    role := "employee"
    function := "server"
    employee_number := "JILL01-0003" }

def exDbJohn : DB :=
  { companies := [exCompany], users := [exUserJohn], requests := [] }

/-- C8 counterexample: the stored account email `John@example.com` differs
from the submitted `john@example.com` only in letter case, yet
`validate_email` accepts the submission — the filter compares the
lowercased input against the stored string verbatim, so the comparison is
not case-insensitive on the stored side. -/
theorem c8_email_counterexample :
    lowerStr "John@example.com" = lowerStr "john@example.com" ∧
    ("John@example.com" : String) ≠ "john@example.com" ∧
    RegistrationRequestSerializer.validate_email exDbJohn "john@example.com" =
      .ok "john@example.com" := by
  decide

/-- C8 amended: email validation rejects the submission iff the submitted
email, lowercased, exactly equals the stored email of an existing Account;
only the submitted side is case-normalized, so a stored email containing
uppercase letters never matches. -/
theorem c8_email_amended :
    ∀ (db : DB) (value : String),
      ((∃ u ∈ db.users, u.email = lowerStr value) →
        RegistrationRequestSerializer.validate_email db value =
          .error "Dit e-mailadres is al geregistreerd.") ∧
      ((∀ u ∈ db.users, u.email ≠ lowerStr value) →
        RegistrationRequestSerializer.validate_email db value =
          .ok (lowerStr value)) := by
  intro db value
  constructor
  · rintro ⟨u, hu, he⟩
    have hany : db.users.any (fun u => u.email == lowerStr value) = true :=
      List.any_eq_true.mpr ⟨u, hu, by simpa [beq_iff_eq] using he⟩
    simp [RegistrationRequestSerializer.validate_email, hany]
  · intro h
    have hany : db.users.any (fun u => u.email == lowerStr value) = false :=
      List.any_eq_false.mpr (fun u hu => by simpa [beq_iff_eq] using h u hu)
    simp [RegistrationRequestSerializer.validate_email, hany]

/-- C8 witness: a lowercase-stored email is rejected case-insensitively on
the submitted side; the uppercase-stored email of exUserJohn is accepted. -/
theorem c8_email_amended_witness :
    RegistrationRequestSerializer.validate_email exDb "Jill@Jillsplace.NL" =
      .error "Dit e-mailadres is al geregistreerd." ∧
    RegistrationRequestSerializer.validate_email exDbJohn "john@example.com" =
      .ok (lowerStr "john@example.com") :=
  ⟨(c8_email_amended exDb "Jill@Jillsplace.NL").1 (by decide),
    (c8_email_amended exDbJohn "john@example.com").2 (by decide)⟩

/-- Modelled from the spec (§4.3): "must match a Dutch mobile pattern after
stripping whitespace/hyphens: optional `+31`/`0031`/leading `0` prefix
followed by `6` and 8 digits" — an optional prefix also admits the bare
`6XXXXXXXX` form, which is the first disjunct below. -/
def claim_phone_pattern (s : List Char) : Bool :=
  tail68 s ||
  (['+', '3', '1'].isPrefixOf s && tail68 (s.drop 3)) ||
  (['0', '0', '3', '1'].isPrefixOf s && tail68 (s.drop 4)) ||
  (['0'].isPrefixOf s && tail68 (s.drop 1))

/-- C7 counterexample: `612345678` — a 6 followed by 8 digits with the
optional prefix omitted — is inside the claimed accepted set but the code
rejects it: the regex `^(\+31|0031|0)6\d{8}$` makes the prefix mandatory. -/
theorem c7_phone_counterexample :
    claim_phone_pattern (cleanPhone "612345678") = true ∧
    RegistrationRequestSerializer.validate_phone "612345678" =
      .error "Voer een geldig Nederlands mobiel nummer in" := by
  decide

/-- Helper: a true `tail68` exposes the `6` plus eight digits. -/
theorem tail68_eq_true {t : List Char} (h : tail68 t = true) :
    ∃ ds, t = '6' :: ds ∧ ds.length = 8 ∧ ds.all (fun c => c.isDigit) = true := by
  cases t with
  | nil => simp [tail68] at h
  | cons c rest =>
    simp only [tail68, Bool.and_eq_true, beq_iff_eq] at h
    rcases h with ⟨⟨hc, hlen⟩, hdig⟩
    exact ⟨rest, by rw [hc], hlen, hdig⟩

/-- C7 amended: after stripping whitespace and hyphens, validation accepts
exactly the strings with a mandatory `+31` / `0031` / leading-`0` prefix
followed by `6` and 8 digits (the bare form without a prefix is rejected);
every accepted input is normalized to the canonical `+31 6 XXXXXXXX` form,
and the claim's concrete examples hold. -/
theorem c7_phone_amended :
    (∀ value : String,
      (∃ s, RegistrationRequestSerializer.validate_phone value = .ok s) ↔
        dutchMobileOk (cleanPhone value) = true) ∧
    (∀ value : String, dutchMobileOk (cleanPhone value) = true →
      ∃ ds : List Char, ds.length = 8 ∧ ds.all (fun c => c.isDigit) = true ∧
        RegistrationRequestSerializer.validate_phone value =
          .ok ⟨'+' :: '3' :: '1' :: '6' :: ds⟩) ∧
    RegistrationRequestSerializer.validate_phone "06-12345678" =
      .ok "+31612345678" ∧
    RegistrationRequestSerializer.validate_phone "0031612345678" =
      .ok "+31612345678" ∧
    RegistrationRequestSerializer.validate_phone "+31612345678" =
      .ok "+31612345678" ∧
    RegistrationRequestSerializer.validate_phone "0512345678" =
      .error "Voer een geldig Nederlands mobiel nummer in" := by
  refine ⟨?_, ?_, by decide, by decide, by decide, by decide⟩
  · intro value
    constructor
    · rintro ⟨s, hs⟩
      by_contra hnot
      have hfalse : dutchMobileOk (cleanPhone value) = false :=
        Bool.eq_false_iff.mpr hnot
      simp [RegistrationRequestSerializer.validate_phone, hfalse] at hs
    · intro h
      simp only [RegistrationRequestSerializer.validate_phone]
      rw [if_neg (by simp [h])]
      split_ifs <;> exact ⟨_, rfl⟩
  · intro value h
    have h' := h
    rw [dutchMobileOk] at h'
    rw [Bool.or_eq_true, Bool.or_eq_true, Bool.and_eq_true, Bool.and_eq_true,
      Bool.and_eq_true] at h'
    rcases h' with (⟨hpre, htail⟩ | ⟨hpre, htail⟩) | ⟨hpre, htail⟩
    · obtain ⟨t, ht⟩ := List.isPrefixOf_iff_prefix.mp hpre
      have hd3 : (cleanPhone value).drop 3 = t := by rw [← ht]; rfl
      rw [hd3] at htail
      obtain ⟨ds, hds, hlen, hdig⟩ := tail68_eq_true htail
      have hclean : cleanPhone value = '+' :: '3' :: '1' :: '6' :: ds := by
        rw [← ht, hds]; rfl
      refine ⟨ds, hlen, hdig, ?_⟩
      have hd : dutchMobileOk ('+' :: '3' :: '1' :: '6' :: ds) = true := by
        rw [← hclean]; exact h
      have hne : (('0' : Char) == '+') = false := by decide
      simp [RegistrationRequestSerializer.validate_phone, hclean, hd,
        List.isPrefixOf_cons₂, hne]
    · obtain ⟨t, ht⟩ := List.isPrefixOf_iff_prefix.mp hpre
      have hd4 : (cleanPhone value).drop 4 = t := by rw [← ht]; rfl
      rw [hd4] at htail
      obtain ⟨ds, hds, hlen, hdig⟩ := tail68_eq_true htail
      have hclean : cleanPhone value = '0' :: '0' :: '3' :: '1' :: '6' :: ds := by
        rw [← ht, hds]; rfl
      refine ⟨ds, hlen, hdig, ?_⟩
      have hd : dutchMobileOk ('0' :: '0' :: '3' :: '1' :: '6' :: ds) = true := by
        rw [← hclean]; exact h
      have hne : (('6' : Char) == '0') = false := by decide
      simp [RegistrationRequestSerializer.validate_phone, hclean, hd,
        List.isPrefixOf_cons₂, hne]
    · obtain ⟨t, ht⟩ := List.isPrefixOf_iff_prefix.mp hpre
      have hd1 : (cleanPhone value).drop 1 = t := by rw [← ht]; rfl
      rw [hd1] at htail
      obtain ⟨ds, hds, hlen, hdig⟩ := tail68_eq_true htail
      have hclean : cleanPhone value = '0' :: '6' :: ds := by
        rw [← ht, hds]; rfl
      refine ⟨ds, hlen, hdig, ?_⟩
      have hd : dutchMobileOk ('0' :: '6' :: ds) = true := by
        rw [← hclean]; exact h
      simp [RegistrationRequestSerializer.validate_phone, hclean, hd,
        List.isPrefixOf_cons₂]

/-- C7 witness: the general acceptance iff and the canonical-form result,
instantiated at `06 12 34 56 78`. -/
theorem c7_phone_amended_witness :
    (∃ s, RegistrationRequestSerializer.validate_phone "06 12 34 56 78" = .ok s) ∧
    (∃ ds : List Char, ds.length = 8 ∧ ds.all (fun c => c.isDigit) = true ∧
      RegistrationRequestSerializer.validate_phone "06 12 34 56 78" =
        .ok ⟨'+' :: '3' :: '1' :: '6' :: ds⟩) :=
  ⟨(c7_phone_amended.1 "06 12 34 56 78").mpr (by decide),
    c7_phone_amended.2.1 "06 12 34 56 78" (by decide)⟩

/-- Modelled from the spec (§4.1 issueCode): "deterministic generation from
the first two words of the name (uppercase initials, truncated to 4
characters), with a numeric suffix (01, 02, ...) appended and incremented
until a collision-free code is found" — initials are the first character of
each of the first two words, and the suffix is always present, starting at
01. -/
def claim_issue_code (existing : List String) (name : String) : String :=
  let base : String :=
    ⟨((((pySplitWs name).take 2).filterMap (fun w => w.head?)).map Char.toUpper).take 4⟩
  firstFree existing (fun c => base ++ fmt02 (c + 1))

/-- C9 counterexample: for the name `Jills Place` with no existing tenants
the claim's description produces `JP01` (initials plus suffix), but the
code concatenates the uppercased first two words, truncates to four
characters and uses the bare result when free, producing `JILL`. -/
theorem c9_code_counterexample :
    claim_issue_code [] "Jills Place" = "JP01" ∧
    CompanyAdmin.generate_company_code [] "Jills Place" = "JILL" ∧
    CompanyAdmin.generate_company_code [] "Jills Place" ≠
      claim_issue_code [] "Jills Place" := by
  decide

/-- C9 amended: the generated code concatenates the first two words of the
name fully uppercased, truncated to 4 characters; that base is used
directly when no existing tenant holds it, and otherwise a numeric suffix
01, 02, ... is appended and incremented until the first collision-free
candidate; the result never collides with an existing code. -/
theorem c9_code_amended :
    ∀ (existing : List String) (name : String),
      CompanyAdmin.generate_company_code existing name ∉ existing ∧
      (CompanyAdmin.generate_base_code name ∉ existing →
        CompanyAdmin.generate_company_code existing name =
          CompanyAdmin.generate_base_code name) ∧
      (CompanyAdmin.generate_base_code name ∈ existing →
        ∃ k, 1 ≤ k ∧
          CompanyAdmin.generate_company_code existing name =
            CompanyAdmin.generate_base_code name ++ fmt02 k ∧
          ∀ j, 1 ≤ j → j < k →
            CompanyAdmin.generate_base_code name ++ fmt02 j ∈ existing) := by
  intro existing name
  have hinj : Function.Injective
      (CompanyAdmin.code_cand (CompanyAdmin.generate_base_code name)) :=
    suffixCand_injective (CompanyAdmin.generate_base_code name) fmt02
      parse_fmt02 fmt02_data_ne_nil
  refine ⟨firstFree_not_mem existing _ hinj, ?_, ?_⟩
  · intro hfree
    have h0 : CompanyAdmin.code_cand (CompanyAdmin.generate_base_code name) 0 ∉
        existing := hfree
    simpa [CompanyAdmin.generate_company_code, CompanyAdmin.code_cand] using
      firstFree_base existing _ h0
  · intro hmem
    obtain ⟨k, heq, hall, hfreek⟩ := firstFree_spec existing _ hinj
    have hk0 : k ≠ 0 := by
      intro h0
      subst h0
      exact hfreek hmem
    refine ⟨k, Nat.one_le_iff_ne_zero.mpr hk0, ?_, ?_⟩
    · have : CompanyAdmin.code_cand (CompanyAdmin.generate_base_code name) k =
          CompanyAdmin.generate_base_code name ++ fmt02 k := by
        simp [CompanyAdmin.code_cand, hk0]
      rw [← this]
      exact heq
    · intro j hj1 hjk
      have hj0 : j ≠ 0 := by omega
      have := hall j hjk
      simpa [CompanyAdmin.code_cand, hj0] using this

/-- C9 witness: with `JILL` taken, the next code for `Jills Place` is the
suffixed `JILL01`; with unrelated codes the bare base is used; the result
never collides. -/
theorem c9_code_amended_witness :
    CompanyAdmin.generate_company_code ["JILL"] "Jills Place" ∉ ["JILL"] ∧
    CompanyAdmin.generate_company_code ["ABCD"] "Jills Place" =
      CompanyAdmin.generate_base_code "Jills Place" ∧
    (∃ k, 1 ≤ k ∧
      CompanyAdmin.generate_company_code ["JILL"] "Jills Place" =
        CompanyAdmin.generate_base_code "Jills Place" ++ fmt02 k ∧
      ∀ j, 1 ≤ j → j < k →
        CompanyAdmin.generate_base_code "Jills Place" ++ fmt02 j ∈ ["JILL"]) :=
  ⟨(c9_code_amended ["JILL"] "Jills Place").1,
    (c9_code_amended ["ABCD"] "Jills Place").2.1 (by decide),
    (c9_code_amended ["JILL"] "Jills Place").2.2 (by decide)⟩

/-! ### Submit: case analysis -/

theorem validate_email_ok {db : DB} {value s : String}
    (h : RegistrationRequestSerializer.validate_email db value = .ok s) :
    s = lowerStr value := by
  unfold RegistrationRequestSerializer.validate_email at h
  split at h
  · cases h
  · exact (Except.ok.inj h).symm

theorem validate_company_code_ok {db : DB} {value s : String}
    (h : RegistrationRequestSerializer.validate_company_code db value = .ok s) :
    s = upperStr value := by
  unfold RegistrationRequestSerializer.validate_company_code at h
  split at h
  · exact (Except.ok.inj h).symm
  · cases h

/-- Every run of the submit view either leaves the database unchanged and
does not answer `created`, or runs the full happy path with all the guard
facts recorded. -/
theorem submit_cases (db : DB) (inp : SubmitInput) (freshRid : Nat)
    (token : String) :
    ((RegistrationRequestView.post db inp freshRid token).snd = db ∧
      ∀ n, (RegistrationRequestView.post db inp freshRid token).fst ≠
        .created n) ∨
    (∃ email phone company_code company,
      RegistrationRequestSerializer.validate_email db inp.email = .ok email ∧
      RegistrationRequestSerializer.validate_phone inp.phone = .ok phone ∧
      RegistrationRequestSerializer.validate_company_code db inp.company_code =
        .ok company_code ∧
      db.companies.find? (fun c => c.company_code == company_code) =
        some company ∧
      db.requests.any (fun r => r.email == email && r.companyId == company.cid &&
        r.status == "pending") = false ∧
      db.requests.any (fun r => r.verification_token == token) = false ∧
      db.requests.any (fun r => r.email == email &&
        r.companyId == company.cid) = false ∧
      RegistrationRequestView.post db inp freshRid token =
        (.created freshRid, { db with requests := db.requests ++
          [RegistrationRequestView.new_request inp freshRid token email phone
            company_code company.cid] })) := by
  cases he : RegistrationRequestSerializer.validate_email db inp.email with
  | error m =>
    exact Or.inl ⟨by simp [RegistrationRequestView.post, he],
      by simp [RegistrationRequestView.post, he]⟩
  | ok email =>
  cases hp : RegistrationRequestSerializer.validate_phone inp.phone with
  | error m =>
    exact Or.inl ⟨by simp [RegistrationRequestView.post, he, hp],
      by simp [RegistrationRequestView.post, he, hp]⟩
  | ok phone =>
  by_cases hf : inp.function ∈ function_choices
  case neg =>
    exact Or.inl ⟨by simp [RegistrationRequestView.post, he, hp, hf],
      by simp [RegistrationRequestView.post, he, hp, hf]⟩
  case pos =>
  cases hcc : RegistrationRequestSerializer.validate_company_code db
      inp.company_code with
  | error m =>
    exact Or.inl ⟨by simp [RegistrationRequestView.post, he, hp, hf, hcc],
      by simp [RegistrationRequestView.post, he, hp, hf, hcc]⟩
  | ok company_code =>
  cases hpw : RegistrationRequestSerializer.validate_password inp.password with
  | false =>
    exact Or.inl ⟨by simp [RegistrationRequestView.post, he, hp, hf, hcc, hpw],
      by simp [RegistrationRequestView.post, he, hp, hf, hcc, hpw]⟩
  | true =>
  by_cases hconf : inp.password = inp.password_confirm
  case neg =>
    exact Or.inl
      ⟨by simp [RegistrationRequestView.post, he, hp, hf, hcc, hpw, hconf],
        by simp [RegistrationRequestView.post, he, hp, hf, hcc, hpw, hconf]⟩
  case pos =>
  have hconf2 : ¬(inp.password ≠ inp.password_confirm) := fun hne => hne hconf
  cases hfind : db.companies.find? (fun c => c.company_code == company_code) with
  | none =>
    exact Or.inl
      ⟨by simp [RegistrationRequestView.post, he, hp, hf, hcc, hpw, hconf2, hfind],
        by simp [RegistrationRequestView.post, he, hp, hf, hcc, hpw, hconf2, hfind]⟩
  | some company =>
  cases hpend : db.requests.any (fun r => r.email == email &&
      r.companyId == company.cid && r.status == "pending") with
  | true =>
    exact Or.inl
      ⟨by simp [RegistrationRequestView.post, he, hp, hf, hcc, hpw, hconf2, hfind,
          hpend],
        by simp [RegistrationRequestView.post, he, hp, hf, hcc, hpw, hconf2, hfind,
          hpend]⟩
  | false =>
  cases htok : db.requests.any (fun r => r.verification_token == token) with
  | true =>
    exact Or.inl
      ⟨by simp [RegistrationRequestView.post, he, hp, hf, hcc, hpw, hconf2, hfind,
          hpend, htok],
        by simp [RegistrationRequestView.post, he, hp, hf, hcc, hpw, hconf2, hfind,
          hpend, htok]⟩
  | false =>
  cases hpair : db.requests.any (fun r => r.email == email &&
      r.companyId == company.cid) with
  | true =>
    exact Or.inl
      ⟨by simp [RegistrationRequestView.post, he, hp, hf, hcc, hpw, hconf2, hfind,
          hpend, htok, hpair],
        by simp [RegistrationRequestView.post, he, hp, hf, hcc, hpw, hconf2, hfind,
          hpend, htok, hpair]⟩
  | false =>
    exact Or.inr ⟨email, phone, company_code, company, rfl, rfl, rfl, hfind,
      hpend, rfl, hpair,
      by simp [RegistrationRequestView.post, he, hp, hf, hcc, hpw, hconf2, hfind,
        hpend, htok, hpair]⟩

/-- C4: a successful Submit appends exactly one request, with status
pending, email unverified and a verification token different from every
previously issued token; and a second Submit for the same (email, tenant)
pair that passes every other validation fails the duplicate-pending
validation instead of creating a second request, leaving the database
unchanged. -/
theorem c4_submit :
    (∀ (db : DB) (inp : SubmitInput) (freshRid : Nat) (token : String)
      (n : Nat) (db' : DB),
      RegistrationRequestView.post db inp freshRid token = (.created n, db') →
      ∃ rr, db'.requests = db.requests ++ [rr] ∧ rr.status = "pending" ∧
        rr.email_verified = false ∧ rr.verification_token = token ∧
        ∀ old ∈ db.requests, old.verification_token ≠ token) ∧
    (∀ (db : DB) (inp : SubmitInput) (freshRid : Nat) (token : String)
      (email phone company_code : String) (co : Company),
      RegistrationRequestSerializer.validate_email db inp.email = .ok email →
      RegistrationRequestSerializer.validate_phone inp.phone = .ok phone →
      inp.function ∈ function_choices →
      RegistrationRequestSerializer.validate_company_code db inp.company_code =
        .ok company_code →
      RegistrationRequestSerializer.validate_password inp.password = true →
      inp.password = inp.password_confirm →
      db.companies.find? (fun c => c.company_code == company_code) = some co →
      (∃ r ∈ db.requests, r.email = email ∧ r.companyId = co.cid ∧
        r.status = "pending") →
      RegistrationRequestView.post db inp freshRid token =
        (.validationError "Er is al een registratie verzoek in behandeling.",
          db)) := by
  constructor
  · intro db inp freshRid token n db' h
    rcases submit_cases db inp freshRid token with ⟨hsnd, hne⟩ |
      ⟨email, phone, cc, company, he, hp, hcc, hfind, hpend, htok, hpair, heq⟩
    · exact absurd (congrArg Prod.fst h) (hne n)
    · rw [heq] at h
      injection h with h1 h2
      subst h2
      refine ⟨RegistrationRequestView.new_request inp freshRid token email phone
        cc company.cid, rfl, rfl, rfl, rfl, ?_⟩
      intro old hold
      have hb := List.any_eq_false.mp htok old hold
      simpa [beq_iff_eq] using hb
  · intro db inp freshRid token email phone company_code co he hp hf hcc hpw
      hconf hfind hdup
    have hpend : db.requests.any (fun r => r.email == email &&
        r.companyId == co.cid && r.status == "pending") = true := by
      rcases hdup with ⟨r, hr, h1, h2, h3⟩
      exact List.any_eq_true.mpr ⟨r, hr, by simp [h1, h2, h3]⟩
    have hconf2 : ¬(inp.password ≠ inp.password_confirm) := fun hne => hne hconf
    simp [RegistrationRequestView.post, he, hp, hf, hcc, hpw, hconf2, hfind,
      hpend]

/-- A fully valid submission for tenant 0. -/
def exSubmitInput : SubmitInput :=
  { email := "carla@voorbeeld.nl", first_name := "Carla", last_name := "Jansen",
    phone := "06-12345678", function := "server", company_code := "jill01",
    password := "Abcd1234", password_confirm := "Abcd1234" }

/-- The same submission for the email that already has a pending request. -/
def exSubmitDup : SubmitInput := { exSubmitInput with email := "anna@voorbeeld.nl" }

/-- C4 witness: the valid submission appends one pending, unverified
request with the fresh token; resubmitting for the pending
`anna@voorbeeld.nl` fails the duplicate validation. -/
theorem c4_submit_witness :
    (∃ rr, (RegistrationRequestView.post exDb exSubmitInput 7 "tok-new").snd.requests =
        exDb.requests ++ [rr] ∧ rr.status = "pending" ∧
        rr.email_verified = false ∧ rr.verification_token = "tok-new" ∧
        ∀ old ∈ exDb.requests, old.verification_token ≠ "tok-new") ∧
    RegistrationRequestView.post exDb exSubmitDup 8 "tok-2" =
      (.validationError "Er is al een registratie verzoek in behandeling.",
        exDb) :=
  ⟨c4_submit.1 exDb exSubmitInput 7 "tok-new" 7 _ (by decide),
    c4_submit.2 exDb exSubmitDup 8 "tok-2" "anna@voorbeeld.nl" "+31612345678"
      "JILL01" exCompany (by decide) (by decide) (by decide) (by decide)
      (by decide) (by decide) (by decide) (by decide)⟩

/-- A request already decided (rejected) for `dave@voorbeeld.nl`. -/
def exRequestRejected : RegistrationRequest :=
  { exRequest with
    rid := 7
    email := "dave@voorbeeld.nl"
    verification_token := "tok-dave"
    status := "rejected" }

def exDbRejected : DB :=
  { companies := [exCompany], users := [exManager],
    requests := [exRequestRejected] }

/-- A new submission for the (email, tenant) pair of the rejected request. -/
def exSubmitDave : SubmitInput := { exSubmitInput with email := "dave@voorbeeld.nl" }

/-- C10: the (email, company) pair is unique over all requests regardless
of status: Submit preserves pairwise distinctness of (email, company), and
when any request — pending, approved or rejected — already holds the pair,
Submit never persists a new request (the `unique_together` constraint of
models.py:213 aborts the transaction). -/
theorem c10_request_pair_unique :
    (∀ (db : DB) (inp : SubmitInput) (freshRid : Nat) (token : String),
      db.requests.Pairwise
        (fun a b => ¬(a.email = b.email ∧ a.companyId = b.companyId)) →
      (RegistrationRequestView.post db inp freshRid token).snd.requests.Pairwise
        (fun a b => ¬(a.email = b.email ∧ a.companyId = b.companyId))) ∧
    (∀ (db : DB) (inp : SubmitInput) (freshRid : Nat) (token : String)
      (co : Company),
      db.companies.find?
        (fun c => c.company_code == upperStr inp.company_code) = some co →
      (∃ r ∈ db.requests, r.email = lowerStr inp.email ∧
        r.companyId = co.cid) →
      (RegistrationRequestView.post db inp freshRid token).snd = db ∧
      ∀ n, (RegistrationRequestView.post db inp freshRid token).fst ≠
        .created n) := by
  constructor
  · intro db inp freshRid token hpw0
    rcases submit_cases db inp freshRid token with ⟨hsnd, -⟩ |
      ⟨email, phone, cc, company, he, hp, hcc, hfind, hpend, htok, hpair, heq⟩
    · rw [hsnd]; exact hpw0
    · have hsnd : (RegistrationRequestView.post db inp freshRid token).snd =
          { db with requests := db.requests ++
            [RegistrationRequestView.new_request inp freshRid token email phone
              cc company.cid] } := by rw [heq]
      rw [hsnd]
      rw [List.pairwise_append]
      refine ⟨hpw0, by simp, ?_⟩
      intro a ha b hb
      have hb' : b = RegistrationRequestView.new_request inp freshRid token
          email phone cc company.cid := by simpa using hb
      subst hb'
      rintro ⟨h1, h2⟩
      have hfa := List.any_eq_false.mp hpair a ha
      apply hfa
      simp only [RegistrationRequestView.new_request] at h1 h2
      simp [beq_iff_eq, h1, h2]
  · intro db inp freshRid token co hfind0 hdup
    rcases submit_cases db inp freshRid token with ⟨hsnd, hne⟩ |
      ⟨email, phone, cc, company, he, hp, hcc, hfind, hpend, htok, hpair, heq⟩
    · exact ⟨hsnd, hne⟩
    · exfalso
      have hemail : email = lowerStr inp.email := validate_email_ok he
      have hcc2 : cc = upperStr inp.company_code := validate_company_code_ok hcc
      rw [hcc2, hfind0] at hfind
      have hco : company = co := (Option.some.inj hfind).symm
      rcases hdup with ⟨r, hr, h1, h2⟩
      have hfa := List.any_eq_false.mp hpair r hr
      apply hfa
      simp [beq_iff_eq, h1, h2, hemail, hco]

/-- C10 witness: Submit keeps the concrete store pairwise-distinct, and the
pair of the already-rejected request 7 can never be re-submitted. -/
theorem c10_request_pair_unique_witness :
    (RegistrationRequestView.post exDb exSubmitInput 7 "tok-new").snd.requests.Pairwise
      (fun a b => ¬(a.email = b.email ∧ a.companyId = b.companyId)) ∧
    ((RegistrationRequestView.post exDbRejected exSubmitDave 9 "tok-9").snd =
        exDbRejected ∧
      ∀ n, (RegistrationRequestView.post exDbRejected exSubmitDave 9 "tok-9").fst ≠
        .created n) :=
  ⟨c10_request_pair_unique.1 exDb exSubmitInput 7 "tok-new" (by decide),
    c10_request_pair_unique.2 exDbRejected exSubmitDave 9 "tok-9" exCompany
      (by decide) (by decide)⟩

/-! ### Approval: inversion and helper lemmas -/

/-- A Decide that answered `approvedOk` passed the permission gate, matched
a pending verified request of the caller's tenant, resolved the tenant row,
and appended exactly the account built by `_create_user_account`. -/
theorem approve_inv {db : DB} {caller : User} {rid2 : Nat} {reason : String}
    {now today uidf n : Nat} {en : String} {db' : DB}
    (h : ApproveRegistrationView.post db caller rid2 "approved" reason now
      today uidf = (.approvedOk n en, db')) :
    ∃ rr co,
      can_approve_users caller = true ∧
      db.requests.find? (ApproveRegistrationView.request_lookup caller rid2) =
        some rr ∧
      db.companies.find? (fun c => c.cid == rr.companyId) = some co ∧
      n = uidf ∧
      en = (ApproveRegistrationView.create_user_account db rr caller co uidf
        now today).employee_number ∧
      db'.companies = db.companies ∧
      db'.users = db.users ++ [ApproveRegistrationView.create_user_account db
        rr caller co uidf now today] := by
  unfold ApproveRegistrationView.post at h
  cases hca : can_approve_users caller with
  | false => simp [hca] at h
  | true =>
  cases hfind : db.requests.find?
      (ApproveRegistrationView.request_lookup caller rid2) with
  | none => simp [hca, hfind] at h
  | some rr =>
  have hs1 : (("approved" : String) == "approved") = true := by decide
  have hs2 : (("approved" : String) == "rejected") = false := by decide
  have hav : ApproveRegistrationView.approval_valid "approved" reason = true := by
    simp [ApproveRegistrationView.approval_valid, hs1, hs2]
  cases hco : db.companies.find? (fun c => c.cid == rr.companyId) with
  | none => simp [hca, hfind, hav, hs2, hco] at h
  | some co =>
    simp only [hca, hfind, hav, hs2, hco, Bool.not_true, Bool.false_eq_true,
      not_false_eq_true, if_true, if_false, Prod.mk.injEq] at h
    refine ⟨rr, co, rfl, rfl, hco, ?_, ?_, ?_, ?_⟩
    · simp at h
      exact h.1.1.symm
    · simp at h
      exact h.1.2.symm
    · simp at h
      rw [← h.2]
    · simp at h
      rw [← h.2]

/-- Field values of the account built by `_create_user_account` (after
`User.save` assigned the employee number). -/
theorem create_user_account_spec (db : DB) (rr : RegistrationRequest)
    (approver : User) (co : Company) (uidf now today : Nat) :
    (ApproveRegistrationView.create_user_account db rr approver co uidf now
      today).companyId = rr.companyId ∧
    (ApproveRegistrationView.create_user_account db rr approver co uidf now
      today).role = ApproveRegistrationView.role_mapping rr.function ∧
    (ApproveRegistrationView.create_user_account db rr approver co uidf now
      today).username = firstFree (db.users.map (fun v => v.username))
        (ApproveRegistrationView.username_cand
          (ApproveRegistrationView.base_username rr)) ∧
    (ApproveRegistrationView.create_user_account db rr approver co uidf now
      today).employee_number = co.company_code ++ "-" ++
        fmt04 ((db.users.filter (fun v => v.companyId == rr.companyId)).length
          + 1) ∧
    (ApproveRegistrationView.create_user_account db rr approver co uidf now
      today).is_approved = true ∧
    (ApproveRegistrationView.create_user_account db rr approver co uidf now
      today).approved_by = some approver.uid ∧
    (ApproveRegistrationView.create_user_account db rr approver co uidf now
      today).approved_at = some now ∧
    (ApproveRegistrationView.create_user_account db rr approver co uidf now
      today).email_verified = true ∧
    (ApproveRegistrationView.create_user_account db rr approver co uidf now
      today).hire_date = some today := by
  refine ⟨?_, ?_, ?_, ?_, ?_, ?_, ?_, ?_, ?_⟩ <;>
    simp [ApproveRegistrationView.create_user_account, User.save]

/-- The function-to-role table equals the fixed mapping described in the
spec: `manager` maps to manager, every other function to employee. -/
theorem role_mapping_eq (f : String) :
    ApproveRegistrationView.role_mapping f =
      if f = "manager" then "manager" else "employee" := by
  unfold ApproveRegistrationView.role_mapping
  split_ifs <;> simp_all

theorem username_cand_injective (base : String) :
    Function.Injective (ApproveRegistrationView.username_cand base) :=
  suffixCand_injective base natToString parse_natToString natToString_data_ne_nil

/-- Same prefix, different counters: distinct employee-number strings. -/
theorem append_fmt04_inj (pre : String) {a b : Nat}
    (h : pre ++ fmt04 a = pre ++ fmt04 b) : a = b := by
  have hd := congrArg String.data h
  simp only [String.data_append] at hd
  have h2 := List.append_cancel_left hd
  have h3 := congrArg (parseAux 0) h2
  rwa [parse_fmt04, parse_fmt04] at h3

/-- C5: the account provisioned by a successful Decide(approved) has the
role given by the function mapping (`manager` to manager, everything else
to employee), a username generated from the lowercased
`firstname.lastname` — used bare when free, otherwise the first
counter-suffixed variant — that collides with no existing username, and
`approved`, `approvedBy`, `approvedAt`, `emailVerified`, `hireDate` set as
the claim states. -/
theorem c5_approve_provisioning (db : DB) (caller : User) (rid2 : Nat)
    (reason : String) (now today uidf n : Nat) (en : String) (db' : DB)
    (rr : RegistrationRequest)
    (hfind : db.requests.find?
      (ApproveRegistrationView.request_lookup caller rid2) = some rr)
    (h : ApproveRegistrationView.post db caller rid2 "approved" reason now
      today uidf = (.approvedOk n en, db')) :
    ∃ u, db'.users = db.users ++ [u] ∧
      u.role = (if rr.function = "manager" then "manager" else "employee") ∧
      u.username ∉ db.users.map (fun v => v.username) ∧
      (ApproveRegistrationView.base_username rr ∉
          db.users.map (fun v => v.username) →
        u.username = ApproveRegistrationView.base_username rr) ∧
      (∃ k, u.username = ApproveRegistrationView.username_cand
          (ApproveRegistrationView.base_username rr) k ∧
        ∀ j, j < k → ApproveRegistrationView.username_cand
          (ApproveRegistrationView.base_username rr) j ∈
            db.users.map (fun v => v.username)) ∧
      u.is_approved = true ∧
      u.approved_by = some caller.uid ∧
      u.approved_at = some now ∧
      u.email_verified = true ∧
      u.hire_date = some today := by
  obtain ⟨rr', co, hca, hfind', hco, hn, hen, hcomp, husers⟩ := approve_inv h
  rw [hfind] at hfind'
  have hrr : rr' = rr := (Option.some.inj hfind').symm
  subst hrr
  obtain ⟨hcid, hrole, huser, hemp, happ, hby, hat, hver, hhire⟩ :=
    create_user_account_spec db rr' caller co uidf now today
  refine ⟨ApproveRegistrationView.create_user_account db rr' caller co uidf
    now today, husers, ?_, ?_, ?_, ?_, happ, hby, hat, hver, hhire⟩
  · rw [hrole, role_mapping_eq]
  · rw [huser]
    exact firstFree_not_mem _ _ (username_cand_injective _)
  · intro hfree
    rw [huser]
    exact firstFree_base _ _ hfree
  · rw [huser]
    obtain ⟨k, heq, hall, -⟩ :=
      firstFree_spec (db.users.map (fun v => v.username))
        (ApproveRegistrationView.username_cand
          (ApproveRegistrationView.base_username rr'))
        (username_cand_injective _)
    exact ⟨k, heq, hall⟩

/-- C5 witness: approving request 5 of tenant 0 creates the account
`anna.smit` with role employee and all flags set. -/
theorem c5_approve_provisioning_witness :
    ∃ u, (ApproveRegistrationView.post exDb exManager 5 "approved" "" 100 50
        9).snd.users = exDb.users ++ [u] ∧
      u.role = (if exRequest.function = "manager" then "manager"
        else "employee") ∧
      u.username ∉ exDb.users.map (fun v => v.username) ∧
      (ApproveRegistrationView.base_username exRequest ∉
          exDb.users.map (fun v => v.username) →
        u.username = ApproveRegistrationView.base_username exRequest) ∧
      (∃ k, u.username = ApproveRegistrationView.username_cand
          (ApproveRegistrationView.base_username exRequest) k ∧
        ∀ j, j < k → ApproveRegistrationView.username_cand
          (ApproveRegistrationView.base_username exRequest) j ∈
            exDb.users.map (fun v => v.username)) ∧
      u.is_approved = true ∧
      u.approved_by = some exManager.uid ∧
      u.approved_at = some 100 ∧
      u.email_verified = true ∧
      u.hire_date = some 50 :=
  c5_approve_provisioning exDb exManager 5 "" 100 50 9 9 "JILL01-0002" _
    exRequest (by decide) (by decide)

/-- A matched request lies in the caller's tenant. -/
theorem request_lookup_companyId {caller : User} {rid2 : Nat}
    {rr : RegistrationRequest}
    (h : ApproveRegistrationView.request_lookup caller rid2 rr = true) :
    rr.companyId = caller.companyId := by
  simp only [ApproveRegistrationView.request_lookup, Bool.and_eq_true,
    beq_iff_eq] at h
  exact h.1.1.2

/-- C2: the employee number is assigned exactly when the field is still
empty, with the value `{tenantCode}-{N:04d}` where N is one more than the
count of the tenant's existing accounts (all of which carry a non-null
employee number); a non-empty employee number is never recomputed; and two
successive Decide(approved) calls in the same tenant never produce the same
employee number. -/
theorem c2_employee_number :
    (∀ (db : DB) (co : Company) (u : User), u.employee_number = "" →
      (User.save db co u).employee_number = co.company_code ++ "-" ++
        fmt04 ((db.users.filter (fun v => v.companyId == u.companyId)).length
          + 1)) ∧
    (∀ (db : DB) (co : Company) (u : User), u.employee_number ≠ "" →
      User.save db co u = u) ∧
    (∀ (db1 db2 db3 : DB) (caller1 caller2 : User) (rid1 rid2 : Nat)
      (reason1 reason2 : String)
      (now1 today1 uid1 now2 today2 uid2 n1 n2 : Nat) (en1 en2 : String),
      ApproveRegistrationView.post db1 caller1 rid1 "approved" reason1 now1
        today1 uid1 = (.approvedOk n1 en1, db2) →
      ApproveRegistrationView.post db2 caller2 rid2 "approved" reason2 now2
        today2 uid2 = (.approvedOk n2 en2, db3) →
      caller2.companyId = caller1.companyId →
      en1 ≠ en2) := by
  refine ⟨?_, ?_, ?_⟩
  · intro db co u h
    simp [User.save, h]
  · intro db co u h
    simp [User.save, h]
  · intro db1 db2 db3 caller1 caller2 rid1 rid2 reason1 reason2 now1 today1
      uid1 now2 today2 uid2 n1 n2 en1 en2 h1 h2 hsame
    obtain ⟨rr1, co1, hca1, hfind1, hco1, hn1, hen1, hcompanies1, husers1⟩ :=
      approve_inv h1
    obtain ⟨rr2, co2, hca2, hfind2, hco2, hn2, hen2, hcompanies2, husers2⟩ :=
      approve_inv h2
    have hc1 : rr1.companyId = caller1.companyId :=
      request_lookup_companyId (List.find?_some hfind1)
    have hc2 : rr2.companyId = caller2.companyId :=
      request_lookup_companyId (List.find?_some hfind2)
    have hcc : rr2.companyId = rr1.companyId := by rw [hc2, hsame, ← hc1]
    have hcomp : co2 = co1 := by
      rw [hcompanies1, hcc, hco1] at hco2
      exact (Option.some.inj hco2).symm
    obtain ⟨hcid1, -, -, hemp1, -⟩ :=
      create_user_account_spec db1 rr1 caller1 co1 uid1 now1 today1
    obtain ⟨-, -, -, hemp2, -⟩ :=
      create_user_account_spec db2 rr2 caller2 co2 uid2 now2 today2
    have hcount : (db2.users.filter
        (fun v => v.companyId == rr2.companyId)).length =
        (db1.users.filter (fun v => v.companyId == rr1.companyId)).length
          + 1 := by
      rw [hcc, husers1, List.filter_append, List.length_append]
      have hone : (([ApproveRegistrationView.create_user_account db1 rr1
          caller1 co1 uid1 now1 today1]).filter
            (fun v => v.companyId == rr1.companyId)).length = 1 := by
        simp [hcid1]
      rw [hone]
    rw [hen1, hen2, hemp1, hemp2, hcomp, hcount]
    intro hcontra
    have := append_fmt04_inj (co1.company_code ++ "-") hcontra
    omega

/-- A second pending verified request in tenant 0. -/
def exRequestEve : RegistrationRequest :=
  { exRequest with
    rid := 8
    email := "eve@voorbeeld.nl"
    verification_token := "tok-eve" }

def exDbTwo : DB :=
  { companies := [exCompany], users := [exManager],
    requests := [exRequest, exRequestEve] }

/-- C2 witness: the first save in tenant 0 (on a database with one user)
assigns `JILL01-0002`; an already-assigned number is kept; and the two
successive approvals of requests 5 and 8 produce the distinct numbers
`JILL01-0002` and `JILL01-0003`. -/
theorem c2_employee_number_witness :
    (User.save exDb exCompany { exManager with uid := 4, employee_number := "" }).employee_number =
      exCompany.company_code ++ "-" ++
        fmt04 ((exDb.users.filter (fun v =>
          v.companyId == exManager.companyId)).length + 1) ∧
    User.save exDb exCompany exManager = exManager ∧
    ("JILL01-0002" : String) ≠ "JILL01-0003" :=
  ⟨c2_employee_number.1 exDb exCompany _ (by decide),
    c2_employee_number.2.1 exDb exCompany exManager (by decide),
    c2_employee_number.2.2 exDbTwo
      (ApproveRegistrationView.post exDbTwo exManager 5 "approved" "" 100 50
        9).snd
      (ApproveRegistrationView.post
        (ApproveRegistrationView.post exDbTwo exManager 5 "approved" "" 100 50
          9).snd exManager 8 "approved" "" 101 50 10).snd
      exManager exManager 5 8 "" "" 100 50 9 101 50 10 9 10
      "JILL01-0002" "JILL01-0003" (by decide) (by decide) rfl⟩

end Rooster
